import Mathlib

/-!
Verification of the session/response state tracker of `opencode-prompts`
(`src/lib/session-state.ts`, with workspace resolution from
`src/lib/workspace.ts`).

The TypeScript functions are shallowly embedded below:

* the JavaScript regular expressions used by `parsePromptEngineResponse`
  are rendered as explicit leftmost-match scanners over `List Char`
  (`findStep`, `findChain`, `findGate`, `findCrits`, `findVerify`,
  `findAttempt`); the scanners reproduce the engine behaviour of the
  concrete patterns in the source, including greedy character classes,
  the lazy `(.+?)(?:\n|$)` line capture and the `/g` resumption point;
* the module-level `Map` of session states plus the on-disk recovery
  tier are modelled as an explicit `Store` value threaded through
  `loadSessionState` / `saveSessionState` / `clearSessionState`, with
  ambient process state (environment variables, filesystem probes)
  collected in an `Env` record; file contents are stored as the parsed
  record (the JSON round-trip is identity on well-formed records);
* `formatChainReminder` is a direct transcription.

JavaScript truthiness of the `string | null` fields is modelled by
`optTruthy` on `Option String` (`none` and `some ""` are falsy).
-/

namespace OpencodePrompts

/-! ## Character classes (JS `\s`, `\d` and the literal classes used) -/

/-- ASCII whitespace as matched by JS `\s` (Unicode space characters do not
occur in any input considered here). -/
def isSpace (c : Char) : Bool :=
  c = ' ' || c = '\t' || c = '\n' || c = '\r' || c = '\x0b' || c = '\x0c'

/-- JS `\d`. -/
def isDigit (c : Char) : Bool := '0' ≤ c && c ≤ '9'

/-- JS `[A-Za-z]`. -/
def isAlphaChar (c : Char) : Bool := ('A' ≤ c && c ≤ 'Z') || ('a' ≤ c && c ≤ 'z')

/-- JS `[A-Za-z0-9 _-]` (gate heading name characters). -/
def isGateNameChar (c : Char) : Bool :=
  isAlphaChar c || isDigit c || c = ' ' || c = '_' || c = '-'

/-- JS `[a-zA-Z0-9_#-]` (chain id characters after the separator). -/
def isChainIdChar (c : Char) : Bool :=
  isAlphaChar c || isDigit c || c = '_' || c = '#' || c = '-'

/-! ## List helpers -/

/-- Strip a literal off the front of a character list; `none` on mismatch. -/
def stripLit : List Char → List Char → Option (List Char)
  | [], l => some l
  | _ :: _, [] => none
  | a :: ps, b :: ls => if a = b then stripLit ps ls else none

/-- Does `m` occur at the front of `l`? -/
def hasPre : List Char → List Char → Bool
  | [], _ => true
  | _ :: _, [] => false
  | a :: ms, b :: ls => a = b && hasPre ms ls

/-- Does `m` occur as a contiguous run anywhere in `l`
(JS `String.prototype.includes`)? -/
def hasSub (m : List Char) : List Char → Bool
  | [] => m.isEmpty
  | c :: t => hasPre m (c :: t) || hasSub m t

/-- Numeric value of a digit run (JS `parseInt(_, 10)` on a `\d+` capture). -/
def digitsVal (ds : List Char) : Nat :=
  ds.foldl (fun a c => 10 * a + (c.toNat - '0'.toNat)) 0

/-- JS `String.prototype.trim` restricted to the whitespace that can occur
in the trimmed fragments (`isSpace`). -/
def jsTrim (s : String) : String :=
  String.mk (((s.data.dropWhile isSpace).reverse.dropWhile isSpace).reverse)

/-- Generic leftmost-match scan: try the positional matcher at every suffix,
left to right (the way a JS regex without `/g` searches a string). -/
def scan1 {α : Type} (tryAt : List Char → Option α) : List Char → Option α
  | [] => tryAt []
  | c :: t =>
    match tryAt (c :: t) with
    | some r => some r
    | none => scan1 tryAt t

/-! ## Positional matchers for the individual patterns -/

/-- The alternation `(?:[Ss]tep|[Pp]rogress)`. -/
def stepKeywordStrip (l : List Char) : Option (List Char) :=
  match stripLit "Step".data l with
  | some r => some r
  | none =>
    match stripLit "step".data l with
    | some r => some r
    | none =>
      match stripLit "Progress".data l with
      | some r => some r
      | none => stripLit "progress".data l

/-- The alternation `(?:of|\/)`. -/
def sepStrip (l : List Char) : Option (List Char) :=
  match stripLit "of".data l with
  | some r => some r
  | none =>
    match l with
    | '/' :: r => some r
    | _ => none

/-- Positional match of `(?:[Ss]tep|[Pp]rogress)\s+(\d+)\s*(?:of|\/)\s*(\d+)`,
returning the two captured numbers. -/
def tryStepAt (l : List Char) : Option (Nat × Nat) :=
  match stepKeywordStrip l with
  | none => none
  | some r =>
    if (r.takeWhile isSpace).isEmpty then none
    else
      let r1 := r.dropWhile isSpace
      let d1 := r1.takeWhile isDigit
      if d1.isEmpty then none
      else
        let r2 := (r1.dropWhile isDigit).dropWhile isSpace
        match sepStrip r2 with
        | none => none
        | some r3 =>
          let d2 := (r3.dropWhile isSpace).takeWhile isDigit
          if d2.isEmpty then none else some (digitsVal d1, digitsVal d2)

/-- First match of the step pattern in the text. -/
def findStep : List Char → Option (Nat × Nat) := scan1 tryStepAt

/-- Positional match of `(chain[-_][a-zA-Z0-9_#-]+)` (whole match captured). -/
def tryChainAt (l : List Char) : Option (List Char) :=
  match stripLit "chain".data l with
  | none => none
  | some r =>
    match r with
    | c :: r1 =>
      if c = '-' || c = '_' then
        let body := r1.takeWhile isChainIdChar
        if body.isEmpty then none else some ("chain".data ++ c :: body)
      else none
    | [] => none

/-- First match of the chain-id pattern in the text. -/
def findChain : List Char → Option (List Char) := scan1 tryChainAt

/-- Positional match of `###\s*([A-Za-z][A-Za-z0-9 _-]+)\n`, returning the
captured heading name (without the surrounding whitespace already eaten by
`\s*`, and before the source's final `trim`). -/
def tryGateAt (l : List Char) : Option (List Char) :=
  match l with
  | '#' :: '#' :: '#' :: rest =>
    match rest.dropWhile isSpace with
    | c0 :: r1 =>
      if isAlphaChar c0 then
        let body := r1.takeWhile isGateNameChar
        if body.isEmpty then none
        else
          match r1.dropWhile isGateNameChar with
          | '\n' :: _ => some (c0 :: body)
          | _ => none
      else none
    | [] => none
  | _ => none

/-- First gate heading match in the text (`match(...)[0]` of the `/g` scan). -/
def findGate : List Char → Option (List Char) := scan1 tryGateAt

/-- The tail `\s*(.+?)(?:\n|$)` of the bullet and shell-verification
patterns, applied after their leading literal.  Returns the lazy capture and
the remainder of the text after the whole match (the `/g` resumption point).

Backtracking of the JS engine on this tail resolves as follows: with the
greedy `\s*` at its maximum, the lazy `.+?` takes the remainder of the
current line when a non-whitespace character remains; when the rest of the
input is all whitespace, `\s*` backs off so that `.+?` captures the last
whitespace character that is not a newline (there is no match at all when
only newlines, or nothing, remain). -/
def lazyLineCap (l : List Char) : Option (List Char × List Char) :=
  let r := l.dropWhile isSpace
  match r with
  | [] =>
    let rev := l.reverse
    match rev.dropWhile (· = '\n') with
    | [] => none
    | x :: _ => some ([x], ((rev.takeWhile (· = '\n')).drop 1).reverse)
  | _ :: _ =>
    some (r.takeWhile (· ≠ '\n'), (r.dropWhile (· ≠ '\n')).drop 1)

/-- Positional match of the bullet pattern `[-•]\s*(.+?)(?:\n|$)`. -/
def tryCritAt (l : List Char) : Option (List Char × List Char) :=
  match l with
  | c :: rest => if c = '-' || c = '•' then lazyLineCap rest else none
  | [] => none

/-- All bullet matches (`match(/[-•]\s*(.+?)(?:\n|$)/g)`): scan left to
right, resuming after each match.  Fuel-indexed for termination; every step
consumes at least one character, so `l.length` fuel always suffices. -/
def findCritsAux : Nat → List Char → List (List Char)
  | 0, _ => []
  | _, [] => []
  | fuel + 1, c :: t =>
    match tryCritAt (c :: t) with
    | some (cap, rest) => cap :: findCritsAux fuel rest
    | none => findCritsAux fuel t

/-- All bullet captures in the text, in order. -/
def findCrits (l : List Char) : List (List Char) := findCritsAux l.length l

/-- Positional match of `Shell verification:\s*(.+?)(?:\n|$)`, returning the
capture. -/
def tryVerifyAt (l : List Char) : Option (List Char) :=
  match stripLit "Shell verification:".data l with
  | none => none
  | some r => (lazyLineCap r).map (·.1)

/-- First shell-verification match in the text. -/
def findVerify : List Char → Option (List Char) := scan1 tryVerifyAt

/-- Positional match of `Attempt\s+(\d+)\/(\d+)`, returning the first
captured number (the source stores only `attemptMatch[1]`). -/
def tryAttemptAt (l : List Char) : Option Nat :=
  match stripLit "Attempt".data l with
  | none => none
  | some r =>
    if (r.takeWhile isSpace).isEmpty then none
    else
      let r1 := r.dropWhile isSpace
      let d1 := r1.takeWhile isDigit
      if d1.isEmpty then none
      else
        match r1.dropWhile isDigit with
        | '/' :: r2 => if (r2.takeWhile isDigit).isEmpty then none else some (digitsVal d1)
        | _ => none

/-- First attempt-count match in the text. -/
def findAttempt : List Char → Option Nat := scan1 tryAttemptAt

/-! ## The data model (`src/lib/types.ts`) -/

/-- The sole persisted entity: chain/gate state for one session. -/
structure ChainState where
  chain_id : String
  current_step : Nat
  total_steps : Nat
  pending_gate : Option String
  gate_criteria : List String
  last_prompt_id : String
  pending_shell_verify : Option String
  shell_verify_attempts : Nat
deriving Repr, DecidableEq

/-- JS truthiness of a `string | null` value: `null` and `""` are falsy. -/
def optTruthy : Option String → Bool
  | some s => !s.isEmpty
  | none => false

/-! ## `parsePromptEngineResponse` -/

/-- The state populated by `parsePromptEngineResponse` before its final
activity check (the body of the function from the `const state = ...`
initialisation through the five extraction blocks), for a string payload. -/
def extractChainState (content : String) : ChainState :=
  let cs := content.data
  let gateOn := hasSub "## Inline Gates".data cs || hasSub "Gate".data cs
  { chain_id :=
      match findChain cs with
      | some c => String.mk c
      | none => ""
    current_step :=
      match findStep cs with
      | some p => p.1
      | none => 0
    total_steps :=
      match findStep cs with
      | some p => p.2
      | none => 0
    pending_gate :=
      if gateOn then
        match findGate cs with
        | some n => some (jsTrim (String.mk n))
        | none => none
      else none
    gate_criteria :=
      if gateOn then
        (((findCrits cs).take 5).map (fun c => jsTrim (String.mk c))).filter
          (fun s => !s.isEmpty)
      else []
    last_prompt_id := ""
    pending_shell_verify :=
      match findVerify cs with
      | some v => some (jsTrim (String.mk v))
      | none => none
    shell_verify_attempts :=
      match findAttempt cs with
      | some n => n
      | none => 0 }

/-- The final `if` of `parsePromptEngineResponse`: the state is worth
returning iff a step, a (truthy) pending gate or a (truthy) pending shell
verification was found. -/
def chainStateActive (s : ChainState) : Bool :=
  decide (0 < s.current_step) || optTruthy s.pending_gate ||
    optTruthy s.pending_shell_verify

/-- The function `parsePromptEngineResponse` for a string payload (for a plain string the
source's normalisation step is the identity). -/
def parsePromptEngineResponse (response : String) : Option ChainState :=
  let state := extractChainState response
  if chainStateActive state then some state else none

/-! ## `formatChainReminder` -/

/-- JS `Array.prototype.join`. -/
def joinSep (sep : String) : List String → String
  | [] => ""
  | [x] => x
  | x :: xs => x ++ sep ++ joinSep sep xs

def formatChainReminder (state : ChainState) (mode : String) : String :=
  let chainId := state.chain_id
  let step := state.current_step
  let total := state.total_steps
  let gate := state.pending_gate
  let verifyCmd := state.pending_shell_verify
  let verifyAttempts :=
    if state.shell_verify_attempts = 0 then 1 else state.shell_verify_attempts
  if mode = "inline" then
    let parts : List String :=
      (if 0 < step then
        ["[" ++ (if chainId.isEmpty then "active" else chainId) ++ "] " ++
          toString step ++ "/" ++ toString total]
      else []) ++
      (if optTruthy gate then ["Gate: " ++ gate.getD ""] else []) ++
      (if optTruthy verifyCmd then
        ["Verify: " ++ toString verifyAttempts ++ "/5"]
      else [])
    let line1 := joinSep " | " parts
    let line2 :=
      if optTruthy verifyCmd then
        "→ Shell verify: `" ++ verifyCmd.getD "" ++ "` will validate"
      else if optTruthy gate then
        "→ GATE_REVIEW: PASS|FAIL - <reason>"
      else if 0 < step ∧ step < total then
        "→ prompt_engine(chain_id:\"" ++ chainId ++ "\") to continue"
      else ""
    if line1.isEmpty then "" else jsTrim (line1 ++ "\n" ++ line2)
  else
    let lines : List String :=
      (if 0 < step then
        [if chainId.isEmpty then
          "[Chain] Step " ++ toString step ++ "/" ++ toString total
        else
          "[Chain] " ++ chainId ++ " - Step " ++ toString step ++ "/" ++
            toString total]
      else []) ++
      (if optTruthy gate then
        ["[Gate] " ++ gate.getD "" ++ " - Respond: GATE_REVIEW: PASS|FAIL - <reason>"]
      else []) ++
      (if optTruthy verifyCmd then
        ["[Verify] `" ++ verifyCmd.getD "" ++ "` - Attempt " ++
          toString verifyAttempts ++ "/5",
         "Run implementation, then prompt_engine validates with shell command"]
      else [])
    joinSep "\n" lines

/-! ## Workspace resolution and the session-state store -/

/-- Ambient process state consulted by `getWorkspaceRoot`
(`src/lib/workspace.ts`): the two environment variables, the
`import.meta.url` self-resolution result (when available), filesystem
existence probes, and the module-relative fallback directory of
`session-state.ts`. -/
structure Env where
  mcpWorkspace : Option String
  opencodeRoot : Option String
  selfRoot : Option String
  fsExists : String → Bool
  fallbackSessionDir : String

/-- One candidate of the resolution chain: accepted when truthy and existing. -/
def envPick (env : Env) (v : Option String) : Option String :=
  match v with
  | some w => if !w.isEmpty && env.fsExists w then some w else none
  | none => none

/-- Resolution chain of `getWorkspaceRoot`: MCP_WORKSPACE, then OPENCODE_PLUGIN_ROOT, then the
project directory, then self-resolution guarded by the `server` probe. -/
def getWorkspaceRoot (env : Env) (projectDir : Option String) : Option String :=
  match envPick env env.mcpWorkspace with
  | some w => some w
  | none =>
    match envPick env env.opencodeRoot with
    | some w => some w
    | none =>
      match envPick env projectDir with
      | some w => some w
      | none =>
        match env.selfRoot with
        | some root => if env.fsExists (root ++ "/server") then some root else none
        | none => none

/-- Model of `getCacheDir`. -/
def getCacheDir (env : Env) (fallback : String) (projectDir : Option String) :
    String :=
  match getWorkspaceRoot env projectDir with
  | some w => w ++ "/server/cache"
  | none => fallback

/-- Model of `getSessionStateDir`. -/
def getSessionStateDir (env : Env) (projectDir : Option String) : String :=
  getCacheDir env env.fallbackSessionDir projectDir ++ "/sessions"

/-- Model of `getSessionStatePath` (the `mkdirSync` side effect creates directories
only and does not affect the file map). -/
def getSessionStatePath (env : Env) (sessionId : String)
    (projectDir : Option String) : String :=
  getSessionStateDir env projectDir ++ "/" ++ sessionId ++ ".json"

/-- The module state of `session-state.ts`: the in-memory `Map` plus the
on-disk per-session records (keyed by full path; contents are the parsed
record, the JSON round-trip being identity on well-formed records). -/
structure Store where
  mem : List (String × ChainState)
  files : List (String × ChainState)
deriving DecidableEq

/-- Lookup: `Map.get` / keyed file read. -/
def assocGet (k : String) : List (String × ChainState) → Option ChainState
  | [] => none
  | (k', v) :: t => if k' = k then some v else assocGet k t

/-- Remove a key (`Map.delete` / `unlinkSync`). -/
def assocDel (k : String) (l : List (String × ChainState)) :
    List (String × ChainState) :=
  l.filter (fun p => decide (p.1 ≠ k))

/-- Insertion: `Map.set` / keyed file overwrite. -/
def assocSet (k : String) (v : ChainState) (l : List (String × ChainState)) :
    List (String × ChainState) :=
  (k, v) :: assocDel k l

/-- Model of `loadSessionState`: in-memory first; on a miss read the per-session file
and promote it into memory.  Returns the result together with the updated
module state. -/
def loadSessionState (env : Env) (sessionId : String) (st : Store)
    (projectDir : Option String) : Option ChainState × Store :=
  match assocGet sessionId st.mem with
  | some s => (some s, st)
  | none =>
    let path := getSessionStatePath env sessionId projectDir
    match assocGet path st.files with
    | none => (none, st)
    | some s => (some s, { st with mem := assocSet sessionId s st.mem })

/-- Model of `saveSessionState`: always store in memory; persist to file only when
requested (a write failure is swallowed; the successful write is modelled). -/
def saveSessionState (env : Env) (sessionId : String) (state : ChainState)
    (st : Store) (projectDir : Option String) (persistToFile : Bool) : Store :=
  let st1 : Store := { st with mem := assocSet sessionId state st.mem }
  if persistToFile then
    { st1 with
      files := assocSet (getSessionStatePath env sessionId projectDir) state st1.files }
  else st1

/-- Model of `clearSessionState`: drop the in-memory entry and delete the on-disk
record if present (deleting an absent file is a no-op). -/
def clearSessionState (env : Env) (sessionId : String) (st : Store)
    (projectDir : Option String) : Store :=
  { mem := assocDel sessionId st.mem
    files := assocDel (getSessionStatePath env sessionId projectDir) st.files }

/-! ## Basic lemmas about the helpers -/

theorem strData_append (a b : String) : (a ++ b).data = a.data ++ b.data := rfl

theorem strMk_data (s : String) : String.mk s.data = s := rfl

theorem strAppend_assoc (a b c : String) : a ++ b ++ c = a ++ (b ++ c) :=
  congrArg String.mk (List.append_assoc a.data b.data c.data)

/-- The list `s` is a suffix of `l`. -/
def listSuf (s l : List Char) : Prop := ∃ t, t ++ s = l

theorem listSuf_refl (l : List Char) : listSuf l l := ⟨[], rfl⟩

theorem listSuf_cons {s t : List Char} (c : Char) (h : listSuf s t) :
    listSuf s (c :: t) := by
  obtain ⟨q, rfl⟩ := h
  exact ⟨c :: q, rfl⟩

theorem listSuf_length {s l : List Char} (h : listSuf s l) : s.length ≤ l.length := by
  obtain ⟨q, rfl⟩ := h
  simp

theorem listSuf_cons_inv {s : List Char} {c : Char} {t : List Char}
    (h : listSuf s (c :: t)) : s = c :: t ∨ listSuf s t := by
  obtain ⟨q, hq⟩ := h
  cases q with
  | nil => exact Or.inl hq
  | cons x q' => exact Or.inr ⟨q', by simpa using congrArg List.tail hq⟩

theorem listSuf_eq_of_length {s l : List Char} (h : listSuf s l)
    (hlen : l.length ≤ s.length) : s = l := by
  obtain ⟨q, rfl⟩ := h
  have : q = [] := by
    cases q with
    | nil => rfl
    | cons x t => simp at hlen; omega
  simp [this]

theorem listSuf_trans {a b c : List Char} (h1 : listSuf a b) (h2 : listSuf b c) :
    listSuf a c := by
  obtain ⟨q, rfl⟩ := h1
  obtain ⟨p, rfl⟩ := h2
  exact ⟨p ++ q, by simp⟩

theorem listSuf_of_length_le {s t l : List Char} (hs : listSuf s l)
    (ht : listSuf t l) (h : s.length ≤ t.length) : listSuf s t := by
  obtain ⟨a, ha⟩ := hs
  obtain ⟨b, hb⟩ := ht
  refine ⟨a.drop b.length, ?_⟩
  have hlen : b.length ≤ a.length := by
    have h1 := congrArg List.length ha
    have h2 := congrArg List.length hb
    simp at h1 h2
    omega
  have : (a ++ s).drop b.length = a.drop b.length ++ s :=
    List.drop_append_of_le_length hlen
  rw [← this, ha, ← hb, List.drop_left]

/-! ### `scan1` -/

theorem scan1_eq_none {α : Type} (tryAt : List Char → Option α) (l : List Char)
    (h : ∀ s, listSuf s l → tryAt s = none) : scan1 tryAt l = none := by
  induction l with
  | nil => simpa [scan1] using h [] (listSuf_refl [])
  | cons c t ih =>
    have hc := h (c :: t) (listSuf_refl _)
    simp only [scan1, hc]
    exact ih fun s hs => h s (listSuf_cons c hs)

theorem scan1_eq_some {α : Type} (tryAt : List Char → Option α) (l m : List Char)
    (r : α) (hm : listSuf m l) (hr : tryAt m = some r)
    (hbefore : ∀ s, listSuf s l → m.length < s.length → tryAt s = none) :
    scan1 tryAt l = some r := by
  induction l with
  | nil =>
    have : m = [] := listSuf_eq_of_length hm (by simp)
    subst this
    simpa [scan1] using hr
  | cons c t ih =>
    by_cases hml : m.length < (c :: t).length
    · have hnone := hbefore (c :: t) (listSuf_refl _) hml
      have hmt : listSuf m t := by
        rcases listSuf_cons_inv hm with h | h
        · subst h; rw [hr] at hnone; exact absurd hnone (by simp)
        · exact h
      simp only [scan1, hnone]
      exact ih hmt fun s hs => hbefore s (listSuf_cons c hs)
    · have : m = c :: t := listSuf_eq_of_length hm (by omega)
      subst this
      simp [scan1, hr]

/-! ### `stripLit`, `hasPre`, `hasSub` -/

theorem stripLit_append (p r : List Char) : stripLit p (p ++ r) = some r := by
  induction p with
  | nil => rfl
  | cons a ps ih => simp [stripLit, ih]

theorem hasPre_append (m r : List Char) : hasPre m (m ++ r) = true := by
  induction m with
  | nil => rfl
  | cons a ms ih => simp [hasPre, ih]

theorem hasPre_decomp {m l : List Char} (h : hasPre m l = true) :
    ∃ r, l = m ++ r := by
  induction m generalizing l with
  | nil => exact ⟨l, rfl⟩
  | cons a ms ih =>
    cases l with
    | nil => simp [hasPre] at h
    | cons b t =>
      simp only [hasPre, Bool.and_eq_true, decide_eq_true_eq] at h
      obtain ⟨rfl, h2⟩ := h
      obtain ⟨r, rfl⟩ := ih h2
      exact ⟨r, rfl⟩

theorem hasSub_nil_left (l : List Char) : hasSub [] l = true := by
  cases l <;> simp [hasSub, hasPre, List.isEmpty]

theorem hasSub_of_decomp (m a b l : List Char) (h : l = a ++ m ++ b) :
    hasSub m l = true := by
  subst h
  induction a with
  | nil =>
    cases m with
    | nil => exact hasSub_nil_left b
    | cons c t =>
      simp only [List.nil_append, hasSub, Bool.or_eq_true]
      exact Or.inl (hasPre_append (c :: t) b)
  | cons x a' ih =>
    simp only [List.cons_append, hasSub, Bool.or_eq_true]
    right
    simpa using ih

theorem hasSub_decomp {m l : List Char} (h : hasSub m l = true) :
    ∃ a b, l = a ++ m ++ b := by
  induction l with
  | nil =>
    cases m with
    | nil => exact ⟨[], [], rfl⟩
    | cons c t => simp [hasSub, List.isEmpty] at h
  | cons c t ih =>
    simp only [hasSub, Bool.or_eq_true] at h
    rcases h with h | h
    · obtain ⟨r, hr⟩ := hasPre_decomp h
      exact ⟨[], r, by simp [hr]⟩
    · obtain ⟨a, b, hab⟩ := ih h
      exact ⟨c :: a, b, by simp [hab]⟩

/-! ### The association-list operations -/

theorem assocGet_assocSet (k : String) (v : ChainState)
    (l : List (String × ChainState)) : assocGet k (assocSet k v l) = some v := by
  simp [assocGet, assocSet]

theorem assocGet_assocDel (k : String) (l : List (String × ChainState)) :
    assocGet k (assocDel k l) = none := by
  induction l with
  | nil => rfl
  | cons p t ih =>
    by_cases h : p.1 = k
    · simpa [assocDel, h] using ih
    · simpa [assocDel, h, assocGet] using ih

theorem assocDel_assocDel (k : String) (l : List (String × ChainState)) :
    assocDel k (assocDel k l) = assocDel k l := by
  simp [assocDel, List.filter_filter]

theorem assocDel_of_get_none {k : String} {l : List (String × ChainState)}
    (h : assocGet k l = none) : assocDel k l = l := by
  induction l with
  | nil => rfl
  | cons p t ih =>
    by_cases hp : p.1 = k
    · simp [assocGet, hp] at h
    · simp only [assocGet, if_neg hp] at h
      have ht := ih h
      simp only [assocDel, List.filter_cons] at ht ⊢
      rw [if_pos (by simp [hp]), ht]

/-! ## Sample ambient state (used to instantiate universally quantified
theorems at concrete inputs) -/

/-- A concrete ambient environment: no environment variables, no
filesystem. -/
def sampleEnv : Env :=
  { mcpWorkspace := none
    opencodeRoot := none
    selfRoot := none
    fsExists := fun _ => false
    fallbackSessionDir := "./server/cache/sessions" }

/-- The store at process start: empty memory tier, no session files. -/
def emptyStore : Store := { mem := [], files := [] }

/-! ## C3: save/load round trip through the in-memory tier -/

/-- C3: for every session id and every valid `ChainState` S,
`saveSessionState(id, S)` (no project-directory hint, no file persistence)
followed immediately by `loadSessionState(id)` returns a value equal to `S`:
the in-memory tier alone suffices, for any ambient environment and any prior
store contents. -/
theorem save_then_load_roundtrip (env : Env) (sessionId : String)
    (S : ChainState) (st : Store) :
    (loadSessionState env sessionId
      (saveSessionState env sessionId S st none false) none).1 = some S := by
  simp [loadSessionState, saveSessionState, assocGet_assocSet]

/-! ## C5: clear then load, idempotence, no-op on absent state -/

/-- C5: `clearSessionState(id)` followed by `loadSessionState(id)` returns
no state, for every prior store; clearing twice equals clearing once; and
clearing a session with no stored state (neither in memory nor on disk) is a
no-op.  All calls are without a project-directory hint. -/
theorem clear_then_load_none (env : Env) (sessionId : String) (st : Store) :
    (loadSessionState env sessionId
        (clearSessionState env sessionId st none) none).1 = none ∧
    clearSessionState env sessionId
        (clearSessionState env sessionId st none) none =
      clearSessionState env sessionId st none ∧
    ((assocGet sessionId st.mem = none ∧
        assocGet (getSessionStatePath env sessionId none) st.files = none) →
      clearSessionState env sessionId st none = st) := by
  refine ⟨?_, ?_, ?_⟩
  · simp [loadSessionState, clearSessionState, assocGet_assocDel]
  · simp [clearSessionState, assocDel_assocDel]
  · rintro ⟨h1, h2⟩
    simp [clearSessionState, assocDel_of_get_none h1, assocDel_of_get_none h2]

/-- Witness for C5 at a concrete session id and the empty store. -/
theorem clear_then_load_none_witness :
    (loadSessionState sampleEnv "s1"
        (clearSessionState sampleEnv "s1" emptyStore none) none).1 = none ∧
    clearSessionState sampleEnv "s1" emptyStore none = emptyStore := by
  have h := clear_then_load_none sampleEnv "s1" emptyStore
  exact ⟨h.1, h.2.2 ⟨rfl, rfl⟩⟩

/-! ## C2: the inline-gates example -/

/-- C2 counterexample: on the exact input of the claim the parser does yield
`pending_gate = "code-quality"`, but `gate_criteria` is the three-element
list `["quality", "Check types", "Check tests"]`, not the claimed
`["Check types", "Check tests"]`: the global bullet regex `[-•]\s*(.+?)(?:\n|$)`
first fires on the hyphen inside `code-quality`. -/
theorem gate_example_criteria_counterexample :
    (extractChainState
        "## Inline Gates\n### code-quality\n- Check types\n- Check tests").pending_gate =
      some "code-quality" ∧
    (extractChainState
        "## Inline Gates\n### code-quality\n- Check types\n- Check tests").gate_criteria =
      ["quality", "Check types", "Check tests"] ∧
    (extractChainState
        "## Inline Gates\n### code-quality\n- Check types\n- Check tests").gate_criteria ≠
      ["Check types", "Check tests"] := by
  decide

/-- C2 amended: on the input
`"## Inline Gates\n### code-quality\n- Check types\n- Check tests"` the
parser yields a state with `pending_gate = "code-quality"` and
`gate_criteria = ["quality", "Check types", "Check tests"]` (the hyphen
inside the heading name is itself picked up as a bullet, contributing
`"quality"` as the first criterion). -/
theorem gate_example_parse :
    parsePromptEngineResponse
        "## Inline Gates\n### code-quality\n- Check types\n- Check tests" =
      some
        { chain_id := ""
          current_step := 0
          total_steps := 0
          pending_gate := some "code-quality"
          gate_criteria := ["quality", "Check types", "Check tests"]
          last_prompt_id := ""
          pending_shell_verify := none
          shell_verify_attempts := 0 } := by
  decide

/-! ## C8: end-to-end scenario -/

/-- C8: parsing `"Step 1 of 3\nResume token: chain-build#9"` yields
`current_step = 1`, `total_steps = 3`, `chain_id = "chain-build#9"`; after
saving the state under session `"s1"`, loading it back returns the same
state, and `formatChainReminder(state, "inline")` produces
`"[chain-build#9] 1/3"` as line 1 and an action line containing both
`prompt_engine` and `chain-build#9` as line 2. -/
theorem end_to_end_scenario :
    parsePromptEngineResponse "Step 1 of 3\nResume token: chain-build#9" =
      some
        { chain_id := "chain-build#9"
          current_step := 1
          total_steps := 3
          pending_gate := none
          gate_criteria := []
          last_prompt_id := ""
          pending_shell_verify := none
          shell_verify_attempts := 0 } ∧
    (loadSessionState sampleEnv "s1"
        (saveSessionState sampleEnv "s1"
          { chain_id := "chain-build#9"
            current_step := 1
            total_steps := 3
            pending_gate := none
            gate_criteria := []
            last_prompt_id := ""
            pending_shell_verify := none
            shell_verify_attempts := 0 } emptyStore none false) none).1 =
      some
        { chain_id := "chain-build#9"
          current_step := 1
          total_steps := 3
          pending_gate := none
          gate_criteria := []
          last_prompt_id := ""
          pending_shell_verify := none
          shell_verify_attempts := 0 } ∧
    formatChainReminder
        { chain_id := "chain-build#9"
          current_step := 1
          total_steps := 3
          pending_gate := none
          gate_criteria := []
          last_prompt_id := ""
          pending_shell_verify := none
          shell_verify_attempts := 0 } "inline" =
      "[chain-build#9] 1/3" ++ "\n" ++
        "→ prompt_engine(chain_id:\"chain-build#9\") to continue" ∧
    hasSub "prompt_engine".data
        "→ prompt_engine(chain_id:\"chain-build#9\") to continue".data = true ∧
    hasSub "chain-build#9".data
        "→ prompt_engine(chain_id:\"chain-build#9\") to continue".data = true := by
  decide

/-! ## C1 counterexample: a non-null but empty extracted shell-verify -/

/-- C1 counterexample: on the input `"Shell verification: \n"` the
extraction sets `pending_shell_verify` to the non-null (but empty) string
`""` — the lazy capture backtracks onto the trailing space, which trims to
`""` — yet `parsePromptEngineResponse` returns no state, because the final
activity check uses JS truthiness, under which `""` is falsy.  This refutes
the claimed "if and only if ... pending_shell_verify non-null". -/
theorem parse_active_counterexample :
    (extractChainState "Shell verification: \n").pending_shell_verify =
      some "" ∧
    parsePromptEngineResponse "Shell verification: \n" = none := by
  decide

/-! ## C6 counterexample: step detection is not fully case-insensitive -/

/-- C6 counterexample: `"STEP 3 OF 7"` contains the step pattern in
uppercase, but the source regex `(?:[Ss]tep|[Pp]rogress)\s+(\d+)\s*(?:of|\/)\s*(\d+)`
has no `i` flag and only varies the first letter, so nothing matches: both
step fields stay 0 and the parser returns no state (the claim predicts
`current_step = 3`, `total_steps = 7`). -/
theorem step_casing_counterexample :
    (extractChainState "STEP 3 OF 7").current_step = 0 ∧
    (extractChainState "STEP 3 OF 7").total_steps = 0 ∧
    parsePromptEngineResponse "STEP 3 OF 7" = none := by
  decide

/-! ## C7 counterexample: an earlier match wins -/

/-- C7 counterexample: `"Progress 1/2 Step 3 of 7"` contains the substring
`"Step 3 of 7"`, but the first match of the step pattern is
`"Progress 1/2"`, so the parser yields `current_step = 1`,
`total_steps = 2` (the claim predicts 3 and 7 for every text containing the
substring). -/
theorem step37_counterexample :
    hasSub "Step 3 of 7".data "Progress 1/2 Step 3 of 7".data = true ∧
    (extractChainState "Progress 1/2 Step 3 of 7").current_step = 1 ∧
    (extractChainState "Progress 1/2 Step 3 of 7").total_steps = 2 := by
  decide

/-! ## C4 counterexample: a non-null but empty pending gate -/

/-- C4 counterexample: a state whose `pending_gate` is the non-null (but
empty) string `""` and whose `pending_shell_verify` is `"npm test"`: both
fields are non-null, yet the inline reminder contains no gate status
fragment at all — the formatter tests JS truthiness, under which `""` is
falsy. -/
theorem inline_both_pending_counterexample :
    (ChainState.mk "" 0 0 (some "") [] "" (some "npm test") 0).pending_gate ≠
      none ∧
    formatChainReminder
        (ChainState.mk "" 0 0 (some "") [] "" (some "npm test") 0) "inline" =
      "Verify: 1/5" ++ "\n" ++ "→ Shell verify: `npm test` will validate" ∧
    hasSub "Gate".data
        (formatChainReminder
          (ChainState.mk "" 0 0 (some "") [] "" (some "npm test") 0)
          "inline").data = false := by
  decide

/-! ## C9 counterexample: a non-null but empty pending shell-verify -/

/-- C9 counterexample: a state whose `pending_shell_verify` is the non-null
(but empty) string `""` with `shell_verify_attempts = 0`: the formatter
emits no verify fragment at all (the inline and full reminders are both
empty), so neither `"Verify: 1/5"` nor `"Attempt 1/5"` is shown — `""` is
falsy under the JS truthiness test the formatter uses. -/
theorem attempts_display_counterexample :
    (ChainState.mk "" 0 0 none [] "" (some "") 0).pending_shell_verify ≠
      none ∧
    formatChainReminder (ChainState.mk "" 0 0 none [] "" (some "") 0)
        "inline" = "" ∧
    formatChainReminder (ChainState.mk "" 0 0 none [] "" (some "") 0)
        "full" = "" := by
  decide

/-! ## C1 amended: the activity test uses truthiness, and no-marker inputs
yield no result -/

/-- C1 amended: `parsePromptEngineResponse` returns a populated `ChainState`
if and only if, after extraction, `current_step > 0` or `pending_gate` is
truthy (non-null and non-empty) or `pending_shell_verify` is truthy; and for
every input with no step, gate-heading or shell-verify marker it returns no
result (an empty result, not an error). -/
theorem parse_populated_iff (content : String) :
    ((parsePromptEngineResponse content).isSome = true ↔
      0 < (extractChainState content).current_step ∨
        optTruthy (extractChainState content).pending_gate = true ∨
        optTruthy (extractChainState content).pending_shell_verify = true) ∧
    ((findStep content.data = none ∧ findGate content.data = none ∧
        findVerify content.data = none) →
      parsePromptEngineResponse content = none) := by
  constructor
  · have hb : (parsePromptEngineResponse content).isSome =
        chainStateActive (extractChainState content) := by
      unfold parsePromptEngineResponse
      by_cases h : chainStateActive (extractChainState content) = true
      · simp [h]
      · simp [h]
    rw [hb]
    simp only [chainStateActive, Bool.or_eq_true, decide_eq_true_eq]
    tauto
  · rintro ⟨hs, hg, hv⟩
    have hact : chainStateActive (extractChainState content) = false := by
      simp [chainStateActive, extractChainState, hs, hg, hv, optTruthy]
    unfold parsePromptEngineResponse
    simp [hact]

/-- Witness for C1 at a concrete marker-free input. -/
theorem parse_populated_iff_witness :
    parsePromptEngineResponse "just plain prose with nothing to track." =
      none :=
  (parse_populated_iff "just plain prose with nothing to track.").2
    ⟨by decide, by decide, by decide⟩

/-! ## C6 amended: only the keyword's first letter varies in case -/

/-- C6 amended: step detection accepts `Step`, `step`, `Progress` and
`progress` (only the first letter of the keyword varies in case, and the
`of` separator is lowercase), setting both fields from the first match;
fully uppercased forms such as `"STEP 3 OF 7"` match nothing; and whenever
no occurrence of the pattern matches, both fields remain 0. -/
theorem step_detection_casing (content : String)
    (h : findStep content.data = none) :
    ((extractChainState content).current_step = 0 ∧
      (extractChainState content).total_steps = 0) ∧
    (extractChainState "Step 3 of 7").current_step = 3 ∧
    (extractChainState "Step 3 of 7").total_steps = 7 ∧
    (extractChainState "step 3 of 7").current_step = 3 ∧
    (extractChainState "Progress 2/4").current_step = 2 ∧
    (extractChainState "Progress 2/4").total_steps = 4 ∧
    (extractChainState "progress 2/4").current_step = 2 ∧
    (extractChainState "STEP 3 OF 7").current_step = 0 ∧
    (extractChainState "STEP 3 OF 7").total_steps = 0 := by
  refine ⟨⟨?_, ?_⟩, by decide⟩
  · simp [extractChainState, h]
  · simp [extractChainState, h]

/-- Witness for C6 at a concrete pattern-free input. -/
theorem step_detection_casing_witness :
    (extractChainState "no markers at all").current_step = 0 ∧
      (extractChainState "no markers at all").total_steps = 0 :=
  (step_detection_casing "no markers at all" (by decide)).1

/-! ## Lemmas about `jsTrim` and `joinSep` -/

theorem dropWhile_eq_self_of_head {l : List Char}
    (h : ∀ c, l.head? = some c → isSpace c = false) :
    l.dropWhile isSpace = l := by
  cases l with
  | nil => rfl
  | cons c t => simp [List.dropWhile_cons, h c rfl]

theorem jsTrim_eq_self (s : String)
    (h1 : ∀ c, s.data.head? = some c → isSpace c = false)
    (h2 : ∀ c, s.data.reverse.head? = some c → isSpace c = false) :
    jsTrim s = s := by
  unfold jsTrim
  rw [dropWhile_eq_self_of_head h1, dropWhile_eq_self_of_head h2,
    List.reverse_reverse]

theorem strIsEmpty_false_of_head {s : String} {c : Char}
    (h : s.data.head? = some c) : s.isEmpty = false := by
  by_contra hb
  have hT : s.isEmpty = true := by revert hb; cases s.isEmpty <;> simp
  have : s = "" := (String.isEmpty_iff s).mp hT
  subst this
  simp at h

theorem head?_data_append {a : String} (b : String) {c : Char}
    (h : a.data.head? = some c) : (a ++ b).data.head? = some c := by
  rw [strData_append]
  cases hd : a.data with
  | nil => rw [hd] at h; simp at h
  | cons x t => rw [hd] at h; simp at h; simp [h]

theorem revHead_data_append (x : String) {y : String} {c : Char}
    (h : y.data.reverse.head? = some c) :
    (x ++ y).data.reverse.head? = some c := by
  rw [strData_append, List.reverse_append]
  cases hd : y.data.reverse with
  | nil => rw [hd] at h; simp at h
  | cons z t => rw [hd] at h; simp at h; simp [h]

theorem joinSep_head_data (sep x : String) (xs : List String) :
    ∃ t, (joinSep sep (x :: xs)).data = x.data ++ t := by
  cases xs with
  | nil => exact ⟨[], (List.append_nil _).symm⟩
  | cons y ys =>
    refine ⟨sep.data ++ (joinSep sep (y :: ys)).data, ?_⟩
    show (x ++ sep ++ joinSep sep (y :: ys)).data = _
    simp [strData_append]

theorem joinSep_mid_data (sep : String) (L : List String) (x : String)
    (rest : List String) :
    ∃ p q : List Char,
      (joinSep sep (L ++ x :: rest)).data = p ++ (x.data ++ q) := by
  induction L with
  | nil =>
    obtain ⟨t, ht⟩ := joinSep_head_data sep x rest
    exact ⟨[], t, by simpa using ht⟩
  | cons a L' ih =>
    obtain ⟨p, q, hpq⟩ := ih
    cases hL : L' ++ x :: rest with
    | nil => simp at hL
    | cons b bs =>
      rw [hL] at hpq
      refine ⟨a.data ++ sep.data ++ p, q, ?_⟩
      have h2 : joinSep sep ((a :: L') ++ x :: rest) =
          a ++ sep ++ joinSep sep (b :: bs) := by
        rw [List.cons_append, hL]
        rfl
      rw [h2]
      simp [strData_append, hpq]

/-- Auxiliary: `head?` through a list append. -/
theorem listHead?_append {l : List Char} (t : List Char) {c : Char}
    (h : l.head? = some c) : (l ++ t).head? = some c := by
  cases l with
  | nil => simp at h
  | cons x xs => simp at h; simp [h]

/-! ## C4 amended: both fragments on line 1 needs truthy (non-empty) fields -/

/-- The step status fragment of the inline reminder (the first `parts.push`
of the source, guarded by `step > 0`). -/
def inlineStepPart (s : ChainState) : List String :=
  if 0 < s.current_step then
    ["[" ++ (if s.chain_id.isEmpty then "active" else s.chain_id) ++ "] " ++
      toString s.current_step ++ "/" ++ toString s.total_steps]
  else []

/-- The attempt numerator the formatter displays:
`state.shell_verify_attempts || 1`. -/
def shownAttempts (s : ChainState) : Nat :=
  if s.shell_verify_attempts = 0 then 1 else s.shell_verify_attempts

/-- Line 1 of the inline reminder when both a gate and a shell verification
are pending: step fragment (when any), `Gate: <name>`, `Verify: <n>/5`,
joined by `" | "`. -/
def inlineBothLine1 (s : ChainState) (g : String) : String :=
  joinSep " | "
    (inlineStepPart s ++
      ["Gate: " ++ g, "Verify: " ++ toString (shownAttempts s) ++ "/5"])

/-- C4 amended: for every `ChainState` whose `pending_gate` and
`pending_shell_verify` are both truthy (non-null **and non-empty** — JS
truthiness), the inline reminder is exactly line 1 carrying both status
fragments (`Gate: <name>` and `Verify: <n>/5`, preceded by the step fragment
when a step is active), a newline, and a single action line — the
shell-verify one, chosen by the fixed priority
shell-verify > gate > chain-continue. -/
theorem inline_both_pending (s : ChainState) (g v : String)
    (hg : s.pending_gate = some g) (hg2 : g.isEmpty = false)
    (hv : s.pending_shell_verify = some v) (hv2 : v.isEmpty = false) :
    formatChainReminder s "inline" =
      inlineBothLine1 s g ++ "\n" ++
        "→ Shell verify: `" ++ v ++ "` will validate" ∧
    hasSub ("Gate: " ++ g).data (inlineBothLine1 s g).data = true ∧
    hasSub ("Verify: " ++ toString (shownAttempts s) ++ "/5").data
      (inlineBothLine1 s g).data = true := by
  have e1 : optTruthy (some g) = true := by simp [optTruthy, hg2]
  have e2 : optTruthy (some v) = true := by simp [optTruthy, hv2]
  have hsub2 : hasSub ("Gate: " ++ g).data (inlineBothLine1 s g).data = true := by
    obtain ⟨p, q, hpq⟩ := joinSep_mid_data " | " (inlineStepPart s)
      ("Gate: " ++ g) ["Verify: " ++ toString (shownAttempts s) ++ "/5"]
    unfold inlineBothLine1
    exact hasSub_of_decomp _ p q _ (by rw [hpq, ← List.append_assoc])
  have hsub3 : hasSub ("Verify: " ++ toString (shownAttempts s) ++ "/5").data
      (inlineBothLine1 s g).data = true := by
    obtain ⟨p, q, hpq⟩ := joinSep_mid_data " | " (inlineStepPart s ++ ["Gate: " ++ g])
      ("Verify: " ++ toString (shownAttempts s) ++ "/5") []
    rw [show (inlineStepPart s ++ ["Gate: " ++ g]) ++
        ["Verify: " ++ toString (shownAttempts s) ++ "/5"] =
        inlineStepPart s ++
          ["Gate: " ++ g, "Verify: " ++ toString (shownAttempts s) ++ "/5"] from
      by simp] at hpq
    unfold inlineBothLine1
    exact hasSub_of_decomp _ p q _ (by rw [hpq, ← List.append_assoc])
  have hL1head : ∃ c, (inlineBothLine1 s g).data.head? = some c ∧
      isSpace c = false := by
    unfold inlineBothLine1 inlineStepPart
    by_cases hstep : 0 < s.current_step
    · rw [if_pos hstep]
      obtain ⟨t, ht⟩ := joinSep_head_data " | "
        ("[" ++ (if s.chain_id.isEmpty then "active" else s.chain_id) ++ "] " ++
          toString s.current_step ++ "/" ++ toString s.total_steps)
        ["Gate: " ++ g, "Verify: " ++ toString (shownAttempts s) ++ "/5"]
      refine ⟨'[', ?_, by decide⟩
      rw [List.singleton_append, ht]
      exact listHead?_append t rfl
    · rw [if_neg hstep]
      obtain ⟨t, ht⟩ := joinSep_head_data " | " ("Gate: " ++ g)
        ["Verify: " ++ toString (shownAttempts s) ++ "/5"]
      refine ⟨'G', ?_, by decide⟩
      rw [List.nil_append, ht]
      exact listHead?_append t rfl
  have hne : (inlineBothLine1 s g).isEmpty = false := by
    obtain ⟨c, hc, _⟩ := hL1head
    exact strIsEmpty_false_of_head hc
  have htrim : jsTrim (inlineBothLine1 s g ++ "\n" ++
        ("→ Shell verify: `" ++ v ++ "` will validate")) =
      inlineBothLine1 s g ++ "\n" ++
        ("→ Shell verify: `" ++ v ++ "` will validate") := by
    apply jsTrim_eq_self
    · obtain ⟨c, hc, hcs⟩ := hL1head
      intro c' h'
      rw [head?_data_append _ (head?_data_append "\n" hc)] at h'
      cases h'
      exact hcs
    · intro c' h'
      rw [show inlineBothLine1 s g ++ "\n" ++
            ("→ Shell verify: `" ++ v ++ "` will validate") =
          (inlineBothLine1 s g ++ "\n" ++ ("→ Shell verify: `" ++ v)) ++
            "` will validate" from by rw [← strAppend_assoc, ← strAppend_assoc],
        revHead_data_append _ (show ("` will validate" : String).data.reverse.head? =
          some 'e' from rfl)] at h'
      cases h'
      decide
  refine ⟨?_, hsub2, hsub3⟩
  have hne' := hne
  have htrim' := htrim
  unfold inlineBothLine1 inlineStepPart shownAttempts at hne' htrim' ⊢
  simp only [formatChainReminder, hg, hv, e1, e2, Option.getD_some, if_true]
  simp only [List.append_assoc, List.singleton_append]
  rw [hne']
  simp only [Bool.false_eq_true, if_false]
  rw [htrim']
  simp only [strAppend_assoc]

/-- Witness for C4 at a concrete state with both fields pending. -/
theorem inline_both_pending_witness :
    formatChainReminder
        (ChainState.mk "chain-implement#3" 2 4 (some "code-quality") []
          "implement" (some "npm test") 2) "inline" =
      inlineBothLine1
          (ChainState.mk "chain-implement#3" 2 4 (some "code-quality") []
            "implement" (some "npm test") 2) "code-quality" ++ "\n" ++
        "→ Shell verify: `" ++ "npm test" ++ "` will validate" :=
  (inline_both_pending
    (ChainState.mk "chain-implement#3" 2 4 (some "code-quality") []
      "implement" (some "npm test") 2)
    "code-quality" "npm test" rfl (by decide) rfl (by decide)).1

/-! ## C9 amended: the displayed attempt numerator -/

/-- First character of a `joinSep`-join of non-empty parts. -/
theorem joinSep_head_general (sep : String) (xs : List String) (hx : xs ≠ [])
    (h : ∀ x ∈ xs, ∃ c, x.data.head? = some c ∧ isSpace c = false) :
    ∃ c, (joinSep sep xs).data.head? = some c ∧ isSpace c = false := by
  cases xs with
  | nil => exact absurd rfl hx
  | cons x t =>
    obtain ⟨r, hr⟩ := joinSep_head_data sep x t
    obtain ⟨c, hc, hcs⟩ := h x (by simp)
    exact ⟨c, by rw [hr]; exact listHead?_append r hc, hcs⟩

/-- The trim `jsTrim` is the identity on a two-line inline reminder whose first line
starts with a non-space character and whose second line is the shell-verify
action. -/
theorem jsTrim_inline_noop (L1 v : String)
    (h : ∃ c, L1.data.head? = some c ∧ isSpace c = false) :
    jsTrim (L1 ++ "\n" ++ ("→ Shell verify: `" ++ v ++ "` will validate")) =
      L1 ++ "\n" ++ ("→ Shell verify: `" ++ v ++ "` will validate") := by
  apply jsTrim_eq_self
  · obtain ⟨c, hc, hcs⟩ := h
    intro c' h'
    rw [head?_data_append _ (head?_data_append "\n" hc)] at h'
    cases h'
    exact hcs
  · intro c' h'
    rw [show L1 ++ "\n" ++ ("→ Shell verify: `" ++ v ++ "` will validate") =
          (L1 ++ "\n" ++ ("→ Shell verify: `" ++ v)) ++ "` will validate" from
        by rw [← strAppend_assoc, ← strAppend_assoc],
      revHead_data_append _ (show ("` will validate" : String).data.reverse.head? =
        some 'e' from rfl)] at h'
    cases h'
    decide

/-- C9 amended: for every `ChainState` whose `pending_shell_verify` is
truthy (non-null **and non-empty** — JS truthiness), the displayed attempt
numerator is `shell_verify_attempts` when positive and `1` otherwise (so it
is never 0); in particular with `shell_verify_attempts = 0` the inline
reminder shows `Verify: 1/5` and the full reminder shows `Attempt 1/5`. -/
theorem verify_attempts_display (s : ChainState) (v : String)
    (hv : s.pending_shell_verify = some v) (hv2 : v.isEmpty = false) :
    0 < shownAttempts s ∧
    (s.shell_verify_attempts = 0 → shownAttempts s = 1) ∧
    (0 < s.shell_verify_attempts → shownAttempts s = s.shell_verify_attempts) ∧
    hasSub ("Verify: " ++ toString (shownAttempts s) ++ "/5").data
      (formatChainReminder s "inline").data = true ∧
    hasSub ("Attempt " ++ toString (shownAttempts s) ++ "/5").data
      (formatChainReminder s "full").data = true := by
  have e2 : optTruthy (some v) = true := by simp [optTruthy, hv2]
  refine ⟨?_, ?_, ?_, ?_, ?_⟩
  · unfold shownAttempts; split <;> omega
  · intro h0; unfold shownAttempts; rw [if_pos h0]
  · intro h0; unfold shownAttempts; rw [if_neg (by omega)]
  · simp only [formatChainReminder, hv, e2, Option.getD_some, if_true,
      shownAttempts]
    have hhead : ∃ c,
        (joinSep " | "
          (((if 0 < s.current_step then
              ["[" ++ (if s.chain_id.isEmpty then "active" else s.chain_id) ++
                "] " ++ toString s.current_step ++ "/" ++
                toString s.total_steps]
            else []) ++
            (if optTruthy s.pending_gate then
              ["Gate: " ++ s.pending_gate.getD ""]
            else [])) ++
            ["Verify: " ++
              toString (if s.shell_verify_attempts = 0 then 1
                else s.shell_verify_attempts) ++ "/5"])).data.head? = some c ∧
          isSpace c = false := by
      apply joinSep_head_general
      · simp
      · intro x hx
        simp only [List.mem_append] at hx
        rcases hx with (hx | hx) | hx
        · split at hx
          · simp only [List.mem_singleton] at hx
            subst hx
            exact ⟨'[', rfl, by decide⟩
          · simp at hx
        · split at hx
          · simp only [List.mem_singleton] at hx
            subst hx
            exact ⟨'G', rfl, by decide⟩
          · simp at hx
        · simp only [List.mem_singleton] at hx
          subst hx
          exact ⟨'V', rfl, by decide⟩
    obtain ⟨c0, hc0, hc0s⟩ := hhead
    rw [strIsEmpty_false_of_head hc0]
    simp only [Bool.false_eq_true, if_false]
    rw [jsTrim_inline_noop _ v ⟨c0, hc0, hc0s⟩]
    obtain ⟨p, q, hpq⟩ := joinSep_mid_data " | "
      ((if 0 < s.current_step then
          ["[" ++ (if s.chain_id.isEmpty then "active" else s.chain_id) ++
            "] " ++ toString s.current_step ++ "/" ++ toString s.total_steps]
        else []) ++
        (if optTruthy s.pending_gate then
          ["Gate: " ++ s.pending_gate.getD ""]
        else []))
      ("Verify: " ++
        toString (if s.shell_verify_attempts = 0 then 1
          else s.shell_verify_attempts) ++ "/5") []
    refine hasSub_of_decomp _ p
      (q ++ ('\n' :: ("→ Shell verify: `" ++ v ++ "` will validate").data)) _ ?_
    rw [strData_append, strData_append, hpq,
      show ("\n" : String).data = ['\n'] from rfl]
    simp [List.append_assoc]
  · simp only [formatChainReminder, hv, e2, Option.getD_some, if_true,
      shownAttempts]
    rw [if_neg (show ¬("full" : String) = "inline" from by decide)]
    obtain ⟨p, q, hpq⟩ := joinSep_mid_data "\n"
      ((if 0 < s.current_step then
          [if s.chain_id.isEmpty then
            "[Chain] Step " ++ toString s.current_step ++ "/" ++
              toString s.total_steps
          else
            "[Chain] " ++ s.chain_id ++ " - Step " ++
              toString s.current_step ++ "/" ++ toString s.total_steps]
        else []) ++
        (if optTruthy s.pending_gate then
          ["[Gate] " ++ s.pending_gate.getD "" ++
            " - Respond: GATE_REVIEW: PASS|FAIL - <reason>"]
        else []))
      ("[Verify] `" ++ v ++ "` - Attempt " ++
        toString (if s.shell_verify_attempts = 0 then 1
          else s.shell_verify_attempts) ++ "/5")
      ["Run implementation, then prompt_engine validates with shell command"]
    refine hasSub_of_decomp _
      (p ++ (("[Verify] `" : String).data ++ (v.data ++ ("` - " : String).data)))
      q _ ?_
    rw [hpq]
    simp [strData_append, List.append_assoc,
      show ("` - Attempt " : String).data =
        ("` - " : String).data ++ ("Attempt " : String).data from by decide]

/-- Witness for C9 at a concrete state with a pending verify command and
zero observed attempts. -/
theorem verify_attempts_display_witness :
    hasSub ("Verify: " ++
        toString (shownAttempts (ChainState.mk "" 0 0 none [] ""
          (some "npm test") 0)) ++ "/5").data
      (formatChainReminder (ChainState.mk "" 0 0 none [] "" (some "npm test") 0)
        "inline").data = true ∧
    hasSub ("Attempt " ++
        toString (shownAttempts (ChainState.mk "" 0 0 none [] ""
          (some "npm test") 0)) ++ "/5").data
      (formatChainReminder (ChainState.mk "" 0 0 none [] "" (some "npm test") 0)
        "full").data = true :=
  ⟨(verify_attempts_display (ChainState.mk "" 0 0 none [] "" (some "npm test") 0)
      "npm test" rfl (by decide)).2.2.2.1,
    (verify_attempts_display (ChainState.mk "" 0 0 none [] "" (some "npm test") 0)
      "npm test" rfl (by decide)).2.2.2.2⟩

/-! ## C7 amended: "Step 3 of 7" wins only as the first, maximal match -/

/-- Positional match of the step pattern at the occurrence itself:
`"Step 3 of 7"` followed by anything not starting with a digit matches and
captures `(3, 7)`. -/
theorem tryStepAt_step37 (rest : List Char)
    (h : ∀ c, rest.head? = some c → isDigit c = false) :
    tryStepAt ("Step 3 of 7".data ++ rest) = some (3, 7) := by
  cases rest with
  | nil => rw [List.append_nil]; decide
  | cons c t =>
    have hc : isDigit c = false := h c rfl
    have h2 : List.takeWhile isDigit (c :: t) = [] := by
      simp [List.takeWhile_cons, hc]
    show tryStepAt
      ('S' :: 't' :: 'e' :: 'p' :: ' ' :: '3' :: ' ' :: 'o' :: 'f' :: ' ' ::
        '7' :: c :: t) = some (3, 7)
    calc tryStepAt ('S' :: 't' :: 'e' :: 'p' :: ' ' :: '3' :: ' ' :: 'o' ::
          'f' :: ' ' :: '7' :: c :: t) =
        if ('7' :: List.takeWhile isDigit (c :: t)).isEmpty = true then none
        else some (3, digitsVal ('7' :: List.takeWhile isDigit (c :: t))) := rfl
      _ = some (3, 7) := by rw [h2]; decide

/-- C7 amended: for every text of the form `pre ++ "Step 3 of 7" ++ post`
in which no position strictly before the occurrence matches the step
pattern and the occurrence is not immediately followed by a further digit,
the parser yields `current_step = 3` and `total_steps = 7` (the original
claim fails when an earlier match exists or when the `7` is extended by
following digits — only the first, maximal match is honored). -/
theorem step_three_of_seven (pre post : String)
    (hpre : ∀ s : List Char, listSuf s ((pre ++ "Step 3 of 7" ++ post).data) →
        ("Step 3 of 7" ++ post).data.length < s.length → tryStepAt s = none)
    (hpost : ∀ c, post.data.head? = some c → isDigit c = false) :
    (extractChainState (pre ++ "Step 3 of 7" ++ post)).current_step = 3 ∧
    (extractChainState (pre ++ "Step 3 of 7" ++ post)).total_steps = 7 := by
  have hdata : (pre ++ "Step 3 of 7" ++ post).data =
      pre.data ++ ("Step 3 of 7".data ++ post.data) := by
    rw [strData_append, strData_append, List.append_assoc]
  have hlen : ("Step 3 of 7" ++ post).data.length =
      ("Step 3 of 7".data ++ post.data).length := by rw [strData_append]
  have hfind : findStep ((pre ++ "Step 3 of 7" ++ post).data) = some (3, 7) := by
    apply scan1_eq_some tryStepAt _ ("Step 3 of 7".data ++ post.data) (3, 7)
    · exact ⟨pre.data, hdata.symm⟩
    · exact tryStepAt_step37 post.data hpost
    · intro s hs hlt
      exact hpre s hs (by rw [hlen]; exact hlt)
  have hfind2 : findStep (pre.data ++ 'S' :: 't' :: 'e' :: 'p' :: ' ' :: '3' ::
      ' ' :: 'o' :: 'f' :: ' ' :: '7' :: post.data) = some (3, 7) := by
    rw [hdata] at hfind
    exact hfind
  constructor <;> simp [extractChainState, hfind2]

/-- Witness for C7 at the occurrence standing alone. -/
theorem step_three_of_seven_witness :
    (extractChainState ("" ++ "Step 3 of 7" ++ "")).current_step = 3 ∧
    (extractChainState ("" ++ "Step 3 of 7" ++ "")).total_steps = 7 := by
  apply step_three_of_seven
  · intro s hs hlt
    have h1 := listSuf_length hs
    rw [show (("" ++ "Step 3 of 7" ++ "") : String).data.length = 11 from
      by decide] at h1
    rw [show (("Step 3 of 7" ++ "") : String).data.length = 11 from
      by decide] at hlt
    exact absurd hlt (by omega)
  · intro c hc
    exact Option.noConfusion hc

/-! ## C10: a gate heading with no trailing newline is not detected -/

theorem mem_of_mem_dropWhile {p : Char → Bool} {x : Char} {l : List Char}
    (h : x ∈ l.dropWhile p) : x ∈ l := by
  induction l with
  | nil => simp at h
  | cons a t ih =>
    rw [List.dropWhile_cons] at h
    by_cases hp : p a = true
    · rw [if_pos hp] at h
      exact List.mem_cons_of_mem a (ih h)
    · rw [if_neg hp] at h
      exact h

/-- A successful positional gate-heading match starts with `###` and
contains a newline (the regex's mandatory terminator). -/
theorem tryGateAt_shape {s n : List Char} (h : tryGateAt s = some n) :
    (∃ rest, s = '#' :: '#' :: '#' :: rest) ∧ '\n' ∈ s := by
  unfold tryGateAt at h
  split at h
  case h_2 => exact absurd h (by simp)
  rename_i rest
  refine ⟨⟨rest, rfl⟩, ?_⟩
  split at h
  case h_2 => exact absurd h (by simp)
  rename_i c0 r1 heq
  split at h
  · split at h
    · rename_i x0 tail heq2
      have hm1 : '\n' ∈ r1.dropWhile isGateNameChar := by
        rw [heq2]; exact List.mem_cons_self _ _
      have hm2 : '\n' ∈ c0 :: r1 :=
        List.mem_cons_of_mem _ (mem_of_mem_dropWhile hm1)
      have hm3 : '\n' ∈ rest.dropWhile isSpace := by rw [heq]; exact hm2
      have hm4 : '\n' ∈ rest := mem_of_mem_dropWhile hm3
      exact List.mem_cons_of_mem _
        (List.mem_cons_of_mem _ (List.mem_cons_of_mem _ hm4))
    · exact absurd h (by simp)
  · exact absurd h (by simp)

/-- C10: for every input text whose only `### <name>` heading is the final
line of the text with no trailing newline (no `###` occurs anywhere earlier,
and the name runs to the end of the text without a newline),
`parsePromptEngineResponse` leaves `pending_gate` null: heading detection
requires a newline immediately after the heading name. -/
theorem gate_heading_requires_newline (pre nm : String)
    (h1 : hasSub "###".data (pre.data ++ ['#', '#']) = false)
    (h2 : ∀ c ∈ nm.data, c ≠ '\n') :
    (extractChainState (pre ++ "### " ++ nm)).pending_gate = none ∧
    (∀ st, parsePromptEngineResponse (pre ++ "### " ++ nm) = some st →
      st.pending_gate = none) := by
  have hdata : (pre ++ "### " ++ nm).data =
      pre.data ++ ('#' :: '#' :: '#' :: ' ' :: nm.data) := by
    rw [strData_append, strData_append, List.append_assoc]
    rfl
  have hnone : ∀ s, listSuf s ((pre ++ "### " ++ nm).data) →
      tryGateAt s = none := by
    intro s hs
    cases hway : tryGateAt s with
    | none => rfl
    | some n =>
      exfalso
      obtain ⟨⟨rest, hrest⟩, hnl⟩ := tryGateAt_shape hway
      by_cases hlen : s.length ≤ ('#' :: '#' :: '#' :: ' ' :: nm.data).length
      · have hsufT : listSuf s ('#' :: '#' :: '#' :: ' ' :: nm.data) :=
          listSuf_of_length_le hs ⟨pre.data, hdata.symm⟩ hlen
        obtain ⟨tq, htq⟩ := hsufT
        have hT : '\n' ∈ tq ++ s := List.mem_append_right tq hnl
        rw [htq] at hT
        simp only [List.mem_cons] at hT
        rcases hT with h | h | h | h | h
        · exact absurd h (by decide)
        · exact absurd h (by decide)
        · exact absurd h (by decide)
        · exact absurd h (by decide)
        · exact absurd rfl (h2 '\n' h)
      · push_neg at hlen
        obtain ⟨q, hq⟩ := hs
        have hlfull : (pre ++ "### " ++ nm).data.length =
            pre.data.length + (4 + nm.data.length) := by
          rw [hdata]; simp; omega
        have hlq : q.length + s.length =
            pre.data.length + (4 + nm.data.length) := by
          have hl := congrArg List.length hq
          simp only [List.length_append] at hl
          rw [hlfull] at hl
          exact hl
        have hlenT : ('#' :: '#' :: '#' :: ' ' :: nm.data).length =
            4 + nm.data.length := by simp; omega
        rw [hlenT] at hlen
        have hql : q.length < pre.data.length := by omega
        have hA : ((pre ++ "### " ++ nm).data).take (pre.data.length + 2) =
            pre.data ++ ['#', '#'] := by
          rw [hdata, List.take_append]
          rfl
        have hB : ((pre ++ "### " ++ nm).data).take (pre.data.length + 2) =
            q ++ ('#' :: '#' :: '#' ::
              rest.take (pre.data.length - 1 - q.length)) := by
          rw [← hq, hrest]
          rw [show pre.data.length + 2 =
            q.length + ((pre.data.length - 1 - q.length) + 3) from by omega]
          rw [List.take_append]
          rfl
        have heq := hA.symm.trans hB
        have : hasSub "###".data (pre.data ++ ['#', '#']) = true := by
          apply hasSub_of_decomp _ q (rest.take (pre.data.length - 1 - q.length))
          rw [heq]
          simp [List.append_assoc]
        rw [this] at h1
        cases h1
  have hfg : findGate ((pre ++ "### " ++ nm).data) = none :=
    scan1_eq_none tryGateAt _ hnone
  have hfg2 : findGate (pre.data ++ '#' :: '#' :: '#' :: ' ' :: nm.data) =
      none := by
    rw [hdata] at hfg
    exact hfg
  have hpg : (extractChainState (pre ++ "### " ++ nm)).pending_gate = none := by
    simp [extractChainState, hfg2]
  refine ⟨hpg, fun st hst => ?_⟩
  have hext : st = extractChainState (pre ++ "### " ++ nm) := by
    simp only [parsePromptEngineResponse] at hst
    by_cases hact :
        chainStateActive (extractChainState (pre ++ "### " ++ nm)) = true
    · rw [if_pos hact] at hst
      exact (Option.some.inj hst).symm
    · rw [if_neg hact] at hst
      exact Option.noConfusion hst
  rw [hext]
  exact hpg

/-- Witness for C10: the gate section trigger is present and the only
heading is the final line without a trailing newline. -/
theorem gate_heading_requires_newline_witness :
    (extractChainState ("## Inline Gates\n" ++ "### " ++ "review")).pending_gate =
      none :=
  (gate_heading_requires_newline "## Inline Gates\n" "review" (by decide)
    (by decide)).1

end OpencodePrompts
